import Mathlib

/-!
# esp32-rainfall-sensor: the configuration header

`config.h` is the only translation unit: fourteen object-like macros, each a
string literal.  The header is embedded twice: as its text (`configHeader`,
one entry per source line, read by a small model of the preprocessor's
directive scanner) and as the constants the macros expand to.  The two are
tied together by `macroTable_eq`.
-/

namespace RainfallSensor

/-! ## The header text -/

/-- The text of `config.h`, one entry per source line. -/
def configHeader : List String :=
  [ "#pragma once",
    "",
    "// -------------------- Wi-Fi --------------------",
    "#define SSID_PRIMARY       \"wifiname1\"",
    "#define PASS_PRIMARY       \"wifipasswd1\"",
    "#define SSID_SECONDARY     \"wifiname2\"",
    "#define PASS_SECONDARY     \"wifipasswd2\"",
    "",
    "// -------------------- MQTT --------------------",
    "#define MQTT_SERVER        \"mqttserverip\"",
    "#define MQTT_USER          \"mqttuser\"",
    "#define MQTT_PASSWORD      \"mqttpasswd\"",
    "#define MQTT_CLIENT_ID     \"ESP32-rfs-1\"   // Some unique name",
    "",
    "// MQTT Topics",
    "#define IMPULSE_TOPIC      \"test/rainfall/impulse\"",
    "#define HOURLY_TOPIC       \"test/rainfall/hourly\"",
    "",
    "// -------------------- Time / NTP --------------------",
    "// Timezone rule (Europe/Bratislava): CET / CEST automatic DST",
    "#define TZ_RULE \"CET-1CEST,M3.5.0/2,M10.5.0/3\"",
    "",
    "// Up to 3 NTP servers",
    "#define NTP_SERVER_1 \"pool.ntp.org\"",
    "#define NTP_SERVER_2 \"time.nist.gov\"",
    "#define NTP_SERVER_3 \"time.google.com\"" ]

/-! ## The macros as constants -/

def SSID_PRIMARY : String := "wifiname1"
def PASS_PRIMARY : String := "wifipasswd1"
def SSID_SECONDARY : String := "wifiname2"
def PASS_SECONDARY : String := "wifipasswd2"

def MQTT_SERVER : String := "mqttserverip"
def MQTT_USER : String := "mqttuser"
def MQTT_PASSWORD : String := "mqttpasswd"
def MQTT_CLIENT_ID : String := "ESP32-rfs-1"

def IMPULSE_TOPIC : String := "test/rainfall/impulse"
def HOURLY_TOPIC : String := "test/rainfall/hourly"

def TZ_RULE : String := "CET-1CEST,M3.5.0/2,M10.5.0/3"

def NTP_SERVER_1 : String := "pool.ntp.org"
def NTP_SERVER_2 : String := "time.nist.gov"
def NTP_SERVER_3 : String := "time.google.com"

/-! ## A model of the preprocessor's view of a header line -/

/-- What an object-like macro expands to. -/
inductive MacroBody where
  /-- exactly one string literal (its contents, quotes removed) -/
  | strLit (s : String)
  /-- no replacement tokens at all -/
  | empty
  /-- any other replacement list: an expression, several tokens, ... -/
  | tokens
deriving DecidableEq, Repr

/-- One logical line of a header, as the preprocessor classifies it. -/
inductive Line where
  | blank
  | comment
  | pragma (arg : String)
  | defineObj (name : String) (body : MacroBody)
  | defineFun (name : String)
  /-- anything else: another directive, a declaration, a statement -/
  | code
deriving DecidableEq, Repr

/-- Horizontal white space. -/
def isBlank (c : Char) : Bool := c = ' ' || c = '\t'

/-- Characters of a C identifier. -/
def isIdentChar (c : Char) : Bool := c.isAlphanum || c = '_'

def skipWs (cs : List Char) : List Char := cs.dropWhile isBlank

/-- Reads a string literal whose opening quote has been consumed: the
characters up to the closing quote, and what follows it.  A backslash takes
the next character with it. -/
def scanStrLit : List Char → List Char → Option (List Char × List Char)
  | _, [] => none
  | acc, c :: rest =>
    if c = '"' then some (acc.reverse, rest)
    else if c = '\\' then
      match rest with
      | [] => none
      | d :: rest2 => scanStrLit (d :: c :: acc) rest2
    else scanStrLit (c :: acc) rest

/-- Classifies the replacement list of an object-like macro. -/
def classifyBody (cs : List Char) : MacroBody :=
  match skipWs cs with
  | [] => .empty
  | '/' :: '/' :: _ => .empty
  | '"' :: rest =>
    match scanStrLit [] rest with
    | none => .tokens
    | some (lit, tail) =>
      match skipWs tail with
      | [] => .strLit (String.mk lit)
      | '/' :: '/' :: _ => .strLit (String.mk lit)
      | _ => .tokens
  | _ => .tokens

/-- Classifies a `#define` whose keyword has been consumed. -/
def classifyDefine (cs : List Char) : Line :=
  match (skipWs cs).span isIdentChar with
  | ([], _) => .code
  | (n :: name, rest) =>
    if n.isDigit then .code
    else
      match rest with
      | '(' :: _ => .defineFun (String.mk (n :: name))
      | _ => .defineObj (String.mk (n :: name)) (classifyBody rest)

/-- Classifies one source line. -/
def classifyLine (s : String) : Line :=
  match skipWs s.toList with
  | [] => .blank
  | '/' :: '/' :: _ => .comment
  | '#' :: rest =>
    match (skipWs rest).span isIdentChar with
    | (dir, tail) =>
      if dir = "pragma".toList then .pragma (String.mk (skipWs tail))
      else if dir = "define".toList then classifyDefine tail
      else .code
  | _ => .code

/-- Whether a replacement list is a single string literal that is not `""`. -/
def MacroBody.isNonEmptyStrLit : MacroBody → Bool
  | .strLit s => s != ""
  | _ => false

/-- The macro definitions of a header, in source order. -/
def macroTable (hdr : List String) : List (String × MacroBody) :=
  hdr.filterMap fun l =>
    match classifyLine l with
    | .defineObj name body => some (name, body)
    | _ => none

/-- The string literal an object-like macro of the header expands to. -/
def expansion (hdr : List String) (name : String) : Option String :=
  match (macroTable hdr).lookup name with
  | some (.strLit lit) => some lit
  | _ => none

/-- The lines of a header that are neither blank, comment, pragma nor an
object-like `#define`: function-like macros, declarations, code. -/
def otherLines (hdr : List String) : List String :=
  hdr.filter fun l =>
    match classifyLine l with
    | .defineFun _ => true
    | .code => true
    | _ => false

/-- The macros of `config.h` by name, paired with the constants above. -/
def configSurface : List (String × String) :=
  [ ("SSID_PRIMARY", SSID_PRIMARY), ("PASS_PRIMARY", PASS_PRIMARY),
    ("SSID_SECONDARY", SSID_SECONDARY), ("PASS_SECONDARY", PASS_SECONDARY),
    ("MQTT_SERVER", MQTT_SERVER), ("MQTT_USER", MQTT_USER),
    ("MQTT_PASSWORD", MQTT_PASSWORD), ("MQTT_CLIENT_ID", MQTT_CLIENT_ID),
    ("IMPULSE_TOPIC", IMPULSE_TOPIC), ("HOURLY_TOPIC", HOURLY_TOPIC),
    ("TZ_RULE", TZ_RULE),
    ("NTP_SERVER_1", NTP_SERVER_1), ("NTP_SERVER_2", NTP_SERVER_2),
    ("NTP_SERVER_3", NTP_SERVER_3) ]

/-! ## The POSIX `TZ` format

`TZ_RULE` is handed to the C library, which reads it by the grammar of IEEE
Std 1003.1, Base Definitions, section 8.3:
`std offset [dst [offset] [,start[/time],end[/time]]]`, without the blanks.
The parser below is written from that section, field by field.
-/

/-- A date of a DST rule. -/
inductive TzDate where
  /-- form `Jn`: Julian day 1..365, February 29 never counted -/
  | julian (n : Nat)
  /-- form `n`: zero-based day of the year 0..365, leap days counted -/
  | dayOfYear (n : Nat)
  /-- form `Mm.w.d`: day `d` (0 = Sunday) of week `w` of month `m`; week 5 is
  the last such day of the month -/
  | monthWeekDay (m w d : Nat)
deriving DecidableEq, Repr

/-- A transition of a DST rule: a date and a local time, in seconds after
midnight. -/
structure TzTransition where
  date : TzDate
  time : Nat
deriving DecidableEq, Repr

/-- The alternative (summer) time of a `TZ` value. -/
structure TzDst where
  name : String
  /-- the offset field after `dst`, in seconds, when one is written -/
  offset : Option Int
  /-- start and end of the alternative time, when a rule is written -/
  rule : Option (TzTransition × TzTransition)
deriving DecidableEq, Repr

/-- A parsed `TZ` value.  Offsets are what is added to local time to arrive
at UTC, in seconds: negative east of Greenwich. -/
structure TzRule where
  std : String
  stdOffset : Int
  dst : Option TzDst
deriving DecidableEq, Repr

/-- Shortest designation POSIX allows. -/
def TZNAME_MIN : Nat := 3

/-- The length every implementation accepts (`_POSIX_TZNAME_MAX`). -/
def POSIX_TZNAME_MAX : Nat := 6

/-- Default time of a transition, 02:00:00. -/
def TZ_DEFAULT_TIME : Nat := 7200

/-- Value of a run of decimal digits. -/
def digitsValue (ds : List Char) : Nat :=
  ds.foldl (fun n d => 10 * n + (d.toNat - '0'.toNat)) 0

/-- One or more decimal digits. -/
def takeNumber (cs : List Char) : Option (Nat × List Char) :=
  match cs.span Char.isDigit with
  | ([], _) => none
  | (ds, rest) => some (digitsValue ds, rest)

/-- A designation, unquoted (letters) or quoted (`<`, letters, digits, signs, `>`). -/
def takeName (cs : List Char) : Option (String × List Char) :=
  match cs with
  | '<' :: body =>
    match body.span (fun c => c.isAlphanum || c = '+' || c = '-') with
    | (nm, '>' :: rest) =>
      if TZNAME_MIN ≤ nm.length ∧ nm.length ≤ POSIX_TZNAME_MAX then some (String.mk nm, rest)
      else none
    | _ => none
  | _ =>
    match cs.span Char.isAlpha with
    | (nm, rest) =>
      if TZNAME_MIN ≤ nm.length ∧ nm.length ≤ POSIX_TZNAME_MAX then some (String.mk nm, rest)
      else none

/-- The optional `:mm` or `:ss` part of a time: 0 when absent. -/
def takeSexagesimal (cs : List Char) : Option (Nat × List Char) :=
  match cs with
  | ':' :: rest =>
    match takeNumber rest with
    | some (v, rest2) => if v ≤ 59 then some (v, rest2) else none
    | none => none
  | _ => some (0, cs)

/-- The form `hh[:mm[:ss]]`, hours 0..24, as seconds. -/
def takeHms (cs : List Char) : Option (Nat × List Char) :=
  match takeNumber cs with
  | none => none
  | some (h, r1) =>
    if 24 < h then none
    else
      match r1 with
      | ':' :: _ =>
        match takeSexagesimal r1 with
        | none => none
        | some (m, r2) =>
          match takeSexagesimal r2 with
          | none => none
          | some (sec, r3) => some (h * 3600 + m * 60 + sec, r3)
      | _ => some (h * 3600, r1)

/-- An offset: `hh[:mm[:ss]]` with an optional sign. -/
def takeOffset (cs : List Char) : Option (Int × List Char) :=
  match cs with
  | '-' :: rest => (takeHms rest).map fun p => (-(p.1 : Int), p.2)
  | '+' :: rest => (takeHms rest).map fun p => ((p.1 : Int), p.2)
  | _ => (takeHms cs).map fun p => ((p.1 : Int), p.2)

/-- A `.`-introduced number of the `Mm.w.d` form. -/
def takeDotNumber (cs : List Char) : Option (Nat × List Char) :=
  match cs with
  | '.' :: rest => takeNumber rest
  | _ => none

/-- A date: `Jn`, `n` or `Mm.w.d`, each field within its range. -/
def takeDate (cs : List Char) : Option (TzDate × List Char) :=
  match cs with
  | 'J' :: rest =>
    match takeNumber rest with
    | some (n, r) => if 1 ≤ n ∧ n ≤ 365 then some (.julian n, r) else none
    | none => none
  | 'M' :: rest =>
    match takeNumber rest with
    | none => none
    | some (m, r1) =>
      match takeDotNumber r1 with
      | none => none
      | some (w, r2) =>
        match takeDotNumber r2 with
        | none => none
        | some (d, r3) =>
          if 1 ≤ m ∧ m ≤ 12 ∧ 1 ≤ w ∧ w ≤ 5 ∧ d ≤ 6 then some (.monthWeekDay m w d, r3)
          else none
  | _ =>
    match takeNumber cs with
    | some (n, r) => if n ≤ 365 then some (.dayOfYear n, r) else none
    | none => none

/-- A transition `date[/time]`; the time has no sign and defaults to 02:00:00. -/
def takeTransition (cs : List Char) : Option (TzTransition × List Char) :=
  match takeDate cs with
  | none => none
  | some (d, r) =>
    match r with
    | '/' :: r2 => (takeHms r2).map fun p => (⟨d, p.1⟩, p.2)
    | _ => some (⟨d, TZ_DEFAULT_TIME⟩, r)

/-- The rule `,start[/time],end[/time]` up to the end of the string. -/
def takeRule (cs : List Char) : Option (TzTransition × TzTransition) :=
  match cs with
  | ',' :: r1 =>
    match takeTransition r1 with
    | some (s, ',' :: r2) =>
      match takeTransition r2 with
      | some (e, []) => some (s, e)
      | _ => none
    | _ => none
  | _ => none

/-- What follows `std offset`: nothing, or `dst [offset] [rule]`. -/
def takeDst (cs : List Char) : Option (Option TzDst) :=
  match cs with
  | [] => some none
  | _ =>
    match takeName cs with
    | none => none
    | some (name, r1) =>
      let (off, r2) : Option Int × List Char :=
        match takeOffset r1 with
        | some (o, r) => (some o, r)
        | none => (none, r1)
      match r2 with
      | [] => some (some ⟨name, off, none⟩)
      | _ =>
        match takeRule r2 with
        | some rule => some (some ⟨name, off, some rule⟩)
        | none => none

/-- Parses a whole `TZ` value; `none` when it is not of the POSIX form. -/
def parseTZ (tz : String) : Option TzRule :=
  match takeName tz.toList with
  | none => none
  | some (std, r1) =>
    match takeOffset r1 with
    | none => none
    | some (off, r2) =>
      match takeDst r2 with
      | none => none
      | some dst => some ⟨std, off, dst⟩

/-- Seconds that standard time is ahead of UTC. -/
def TzRule.stdUtcOffset (r : TzRule) : Int := -r.stdOffset

/-- Seconds that the alternative time is ahead of UTC: from its own offset
field, else one hour ahead of standard time. -/
def TzRule.dstUtcOffset (r : TzRule) : Option Int :=
  r.dst.map fun d =>
    match d.offset with
    | some o => -o
    | none => r.stdUtcOffset + 3600

/-! ## Topic names, host names, credentials

Topic levels as in MQTT 3.1.1 section 4.7, host names as in RFC 1123.
-/

/-- Splits at every occurrence of `sep`; the pieces may be empty. -/
def splitAt (sep : Char) : List Char → List (List Char)
  | [] => [[]]
  | c :: cs =>
    if c = sep then [] :: splitAt sep cs
    else
      match splitAt sep cs with
      | [] => [[c]]
      | l :: ls => (c :: l) :: ls

/-- The levels of an MQTT topic name: the pieces between the `/` separators. -/
def topicLevels (topic : String) : List String :=
  (splitAt '/' topic.toList).map String.mk

/-- Printable ASCII, space to tilde. -/
def isPrintableAscii (c : Char) : Bool := 32 ≤ c.toNat && c.toNat ≤ 126

/-- A label of a host name: letters, digits and inner hyphens, 1 to 63 long. -/
def isHostLabel (l : List Char) : Bool :=
  1 ≤ l.length && l.length ≤ 63 &&
  l.all (fun c => c.isAlphanum || c = '-') &&
  l.head? != some '-' && l.getLast? != some '-'

/-- A host name in the syntax of RFC 1123: dot-separated labels, at most 253
characters. -/
def isHostname (h : String) : Bool :=
  h.length ≤ 253 && (splitAt '.' h.toList).all isHostLabel

/-! ## ImpulseDebouncer

The sketch that consumes these settings is not part of the sources; the
debouncer and the accumulator below follow the specification of the node
(sections 3, 4.1, 4.2 and 8).  Times are milliseconds.
-/

/-- Modelled from the spec: the ImpulseEvent record of the data model (the
sketch declaring it is missing): one bucket tip, with its monotonic timestamp
and its sequence number. -/
structure ImpulseEvent where
  timestamp : Nat
  seq : Nat
deriving DecidableEq, Repr

/-- Modelled from the spec: the state of the ImpulseDebouncer (the sketch
implementing it is missing): the configured debounce window, the time of the
last raw transition seen, and the sequence number of the next event. -/
structure ImpulseDebouncer where
  window : Nat
  lastTransition : Option Nat
  nextSeq : Nat
deriving DecidableEq, Repr

/-- Modelled from the spec: the ImpulseDebouncer before any transition (the
sketch implementing it is missing). -/
def ImpulseDebouncer.init (window : Nat) : ImpulseDebouncer :=
  { window := window, lastTransition := none, nextSeq := 0 }

/-- Modelled from the spec: the ImpulseDebouncer guard (the sketch implementing
it is missing): a transition is closer than the window to the one before it. -/
def ImpulseDebouncer.tooClose (d : ImpulseDebouncer) (t : Nat) : Bool :=
  match d.lastTransition with
  | none => false
  | some l => decide (t < l + d.window)

/-- Modelled from the spec: the ImpulseDebouncer on one raw edge transition at
time `t` (the sketch implementing it is missing): a transition closer than
the window to the previous one is suppressed, any other emits one
ImpulseEvent stamped `t`; there is no other effect.  For transitions in time
order this also suppresses every transition closer than the window to the
last event, and makes the window the minimum interval between events
(`emittedEvents_spacing`). -/
def ImpulseDebouncer.onTransition (d : ImpulseDebouncer) (t : Nat) :
    ImpulseDebouncer × Option ImpulseEvent :=
  if d.tooClose t then
    ({ d with lastTransition := some t }, none)
  else
    ({ d with lastTransition := some t, nextSeq := d.nextSeq + 1 },
     some { timestamp := t, seq := d.nextSeq })

/-- Modelled from the spec: the ImpulseDebouncer fed a sequence of raw
transitions (the sketch implementing it is missing): the final state and the
events emitted, in order. -/
def ImpulseDebouncer.run : ImpulseDebouncer → List Nat → ImpulseDebouncer × List ImpulseEvent
  | d, [] => (d, [])
  | d, t :: ts =>
    match d.onTransition t with
    | (d1, none) => d1.run ts
    | (d1, some e) => ((d1.run ts).1, e :: (d1.run ts).2)

/-- The events a fresh debouncer emits for a sequence of transitions. -/
def emittedEvents (window : Nat) (ts : List Nat) : List ImpulseEvent :=
  ((ImpulseDebouncer.init window).run ts).2

/-- The number of transitions separated by at least the debounce window: the
first one, and every later one that comes at least the window after the
transition before it. -/
def separatedCount (window : Nat) (ts : List Nat) : Nat :=
  (if ts.isEmpty then 0 else 1) +
    (ts.zip ts.tail).countP (fun p => decide (p.1 + window ≤ p.2))

/-- Adjacent pairs of `prev :: ts` that lie at least the window apart. -/
def countGaps (window : Nat) (prev : Nat) (ts : List Nat) : Nat :=
  ((prev :: ts).zip ts).countP (fun p => decide (p.1 + window ≤ p.2))

/-! ## RainAccumulator -/

/-- Length of an hour bucket, in milliseconds. -/
def HOUR_MS : Nat := 3600000

/-- Hour buckets of a day. -/
def HOURS_PER_DAY : Nat := 24

/-- Modelled from the spec: the HourlyTotal record of the data model (the
sketch declaring it is missing): the start of an hour bucket and the number
of impulses in it. -/
structure HourlyTotal where
  hourStart : Nat
  count : Nat
deriving DecidableEq, Repr

/-- Modelled from the spec: the state of the RainAccumulator (the sketch
implementing it is missing): the start of the current hour bucket, in local
time since midnight, and the internal counter. -/
structure RainAccumulator where
  hourStart : Nat
  count : Nat
deriving DecidableEq, Repr

/-- Modelled from the spec: the RainAccumulator at local midnight (the sketch
implementing it is missing). -/
def RainAccumulator.init : RainAccumulator := { hourStart := 0, count := 0 }

/-- Modelled from the spec: `currentHourCount()` of the RainAccumulator (the
sketch implementing it is missing). -/
def RainAccumulator.currentHourCount (a : RainAccumulator) : Nat := a.count

/-- Modelled from the spec: the rollover of the RainAccumulator at one hour
boundary (the sketch implementing it is missing): in one step it yields the
HourlyTotal of the hour that ended and resets the counter to zero. -/
def RainAccumulator.rollover (a : RainAccumulator) : RainAccumulator × HourlyTotal :=
  ({ hourStart := a.hourStart + HOUR_MS, count := 0 },
   { hourStart := a.hourStart, count := a.count })

/-- Modelled from the spec: `n` successive rollovers of the RainAccumulator
(the sketch implementing it is missing). -/
def RainAccumulator.rolloverN : Nat → RainAccumulator → RainAccumulator × List HourlyTotal
  | 0, a => (a, [])
  | n + 1, a =>
    ((rolloverN n a.rollover.1).1, a.rollover.2 :: (rolloverN n a.rollover.1).2)

/-- Modelled from the spec: the rollover check of the RainAccumulator against
the local time `now` (the sketch implementing it is missing): one rollover
for every hour boundary that is not after `now`. -/
def RainAccumulator.checkRollover (a : RainAccumulator) (now : Nat) :
    RainAccumulator × List HourlyTotal :=
  a.rolloverN ((now - a.hourStart) / HOUR_MS)

/-- Modelled from the spec: `recordImpulse(event)` of the RainAccumulator (the
sketch implementing it is missing): the hour boundaries up to the event's
timestamp roll over first, so that an impulse at a boundary falls into the
new hour, then the counter is incremented. -/
def RainAccumulator.recordImpulse (a : RainAccumulator) (e : ImpulseEvent) :
    RainAccumulator × List HourlyTotal :=
  ({ (a.checkRollover e.timestamp).1 with count := (a.checkRollover e.timestamp).1.count + 1 },
   (a.checkRollover e.timestamp).2)

/-- Modelled from the spec: the RainAccumulator fed a sequence of impulses
(the sketch implementing it is missing): the final state and the totals
handed out on the way. -/
def RainAccumulator.run : RainAccumulator → List ImpulseEvent → RainAccumulator × List HourlyTotal
  | a, [] => (a, [])
  | a, e :: es =>
    (((a.recordImpulse e).1.run es).1, (a.recordImpulse e).2 ++ ((a.recordImpulse e).1.run es).2)

/-- Modelled from the spec: the totals of one day (the sketch producing them
is missing): those handed out while the day's impulses are recorded, then
those of the end-of-period flush at the next midnight. -/
def dayTotals (es : List ImpulseEvent) : List HourlyTotal :=
  (RainAccumulator.init.run es).2 ++
    ((RainAccumulator.init.run es).1.checkRollover (HOURS_PER_DAY * HOUR_MS)).2

/-- The impulses whose timestamp falls within hour bucket `h`, that is within
`[h * HOUR_MS, h * HOUR_MS + HOUR_MS)`. -/
def impulsesInHour (es : List ImpulseEvent) (h : Nat) : Nat :=
  es.countP fun e => decide (h * HOUR_MS ≤ e.timestamp ∧ e.timestamp < h * HOUR_MS + HOUR_MS)

/-- What a run is expected to hand out for the hours `k .. k + n - 1` when
the hour `k` starts with `c` impulses already counted. -/
def expectedTotals (k n c : Nat) (es : List ImpulseEvent) : List HourlyTotal :=
  (List.range' k n).map fun h =>
    { hourStart := h * HOUR_MS, count := (if h = k then c else 0) + impulsesInHour es h }

/-- Impulses at the given times of day (hour, minute), numbered in order. -/
def impulsesAt (hm : List (Nat × Nat)) : List ImpulseEvent :=
  hm.enum.map fun p => { timestamp := p.2.1 * HOUR_MS + p.2.2 * 60000, seq := p.1 }

/-- The scenario of the specification: impulses at 0:10, 0:20, 0:45, 1:05
and 1:50. -/
def scenarioImpulses : List ImpulseEvent :=
  impulsesAt [(0, 10), (0, 20), (0, 45), (1, 5), (1, 50)]

/-! ## The header: proofs -/

/-- Scanning the header text gives exactly the constants of `configSurface`. -/
theorem macroTable_eq :
    macroTable configHeader = configSurface.map fun p => (p.1, MacroBody.strLit p.2) := by
  decide

/-- The scanner tells the kinds of line apart. -/
theorem classifyLine_examples :
    classifyLine "#define LED_PIN 2" = .defineObj "LED_PIN" .tokens ∧
    classifyLine "#define NAME \"a\" \"b\"" = .defineObj "NAME" .tokens ∧
    classifyLine "#define EMPTY" = .defineObj "EMPTY" .empty ∧
    classifyLine "#define EMPTY_STR \"\"" = .defineObj "EMPTY_STR" (.strLit "") ∧
    classifyLine "#define MAX(a, b) ((a) > (b) ? (a) : (b))" = .defineFun "MAX" ∧
    classifyLine "#include <WiFi.h>" = .code ∧
    classifyLine "const char* topic = \"x\";" = .code ∧
    classifyLine "void setup();" = .code ∧
    classifyLine "  // note" = .comment ∧
    classifyLine "   " = .blank := by
  decide

/-- Scanning the header finds no function-like macro, declaration or code. -/
theorem otherLines_nil : otherLines configHeader = [] := by
  decide

/-- C2 as stated fails: the header does not define 15 macros. -/
theorem config_macro_count_not_15 :
    ¬ ((macroTable configHeader).length = 15 ∧
       (macroTable configHeader).map Prod.fst =
         ["SSID_PRIMARY", "PASS_PRIMARY", "SSID_SECONDARY", "PASS_SECONDARY",
          "MQTT_SERVER", "MQTT_USER", "MQTT_PASSWORD", "MQTT_CLIENT_ID",
          "IMPULSE_TOPIC", "HOURLY_TOPIC", "TZ_RULE",
          "NTP_SERVER_1", "NTP_SERVER_2", "NTP_SERVER_3"] ∧
       (∀ p ∈ macroTable configHeader, p.2.isNonEmptyStrLit = true) ∧
       otherLines configHeader = []) := by
  intro h
  exact absurd h.1 (by decide)

/-- C2, amended: the definitions of `config.h` are exactly the 14 macros
SSID_PRIMARY ... NTP_SERVER_3, in this order and each defined once; every one
is an object-like macro whose replacement list is a single non-empty string
literal, equal to the constant of the same name; and the header has no other
line than blank lines, comments and `#pragma once`. -/
theorem config_surface_exact :
    (macroTable configHeader).length = 14 ∧
    (macroTable configHeader).map Prod.fst =
      ["SSID_PRIMARY", "PASS_PRIMARY", "SSID_SECONDARY", "PASS_SECONDARY",
       "MQTT_SERVER", "MQTT_USER", "MQTT_PASSWORD", "MQTT_CLIENT_ID",
       "IMPULSE_TOPIC", "HOURLY_TOPIC", "TZ_RULE",
       "NTP_SERVER_1", "NTP_SERVER_2", "NTP_SERVER_3"] ∧
    ((macroTable configHeader).map Prod.fst).Nodup ∧
    (∀ p ∈ macroTable configHeader, p.2.isNonEmptyStrLit = true) ∧
    macroTable configHeader =
      [ ("SSID_PRIMARY", .strLit SSID_PRIMARY), ("PASS_PRIMARY", .strLit PASS_PRIMARY),
        ("SSID_SECONDARY", .strLit SSID_SECONDARY),
        ("PASS_SECONDARY", .strLit PASS_SECONDARY),
        ("MQTT_SERVER", .strLit MQTT_SERVER), ("MQTT_USER", .strLit MQTT_USER),
        ("MQTT_PASSWORD", .strLit MQTT_PASSWORD),
        ("MQTT_CLIENT_ID", .strLit MQTT_CLIENT_ID),
        ("IMPULSE_TOPIC", .strLit IMPULSE_TOPIC), ("HOURLY_TOPIC", .strLit HOURLY_TOPIC),
        ("TZ_RULE", .strLit TZ_RULE),
        ("NTP_SERVER_1", .strLit NTP_SERVER_1), ("NTP_SERVER_2", .strLit NTP_SERVER_2),
        ("NTP_SERVER_3", .strLit NTP_SERVER_3) ] ∧
    (configHeader.filter fun l => classifyLine l = Line.pragma "once").length = 1 ∧
    otherLines configHeader = [] := by
  decide

/-- The `TZ` parser accepts the plain and the fully explicit forms and
rejects strings outside the grammar. -/
theorem parseTZ_examples :
    parseTZ "UTC0" = some ⟨"UTC", 0, none⟩ ∧
    parseTZ "EST5EDT" = some ⟨"EST", 18000, some ⟨"EDT", none, none⟩⟩ ∧
    parseTZ "<+0330>-3:30<+0430>-4:30,J79/24,J263/24" =
      some ⟨"+0330", -12600,
        some ⟨"+0430", some (-16200), some (⟨.julian 79, 86400⟩, ⟨.julian 263, 86400⟩)⟩⟩ ∧
    parseTZ "" = none ∧ parseTZ "CET" = none ∧ parseTZ "CE-1" = none ∧
    parseTZ "CET-25" = none ∧ parseTZ "CET-1CEST,M3.5.0/2" = none ∧
    parseTZ "CET-1CEST,M13.5.0/2,M10.5.0/3" = none ∧
    parseTZ "CET-1CEST,M3.6.0/2,M10.5.0/3" = none ∧
    parseTZ "CET-1CEST,M3.5.7/2,M10.5.0/3" = none ∧
    parseTZ "CET-1CEST,M3.5.0/2,M10.5.0/3 " = none ∧
    parseTZ "CET -1CEST,M3.5.0/2,M10.5.0/3" = none := by
  decide

/-- C1: `TZ_RULE` parses under the POSIX grammar: standard time `CET` with
offset field -1 hour, that is UTC+1; alternative time `CEST` with no offset
field of its own, so one hour ahead of standard time, UTC+2; start of the
alternative time `M3.5.0` (month 3, week 5 = last, day 0 = Sunday) at 02:00
and end `M10.5.0` (last Sunday of month 10) at 03:00. -/
theorem tz_rule_is_cet_cest :
    expansion configHeader "TZ_RULE" = some TZ_RULE ∧
    parseTZ TZ_RULE =
      some { std := "CET", stdOffset := -1 * 3600,
             dst := some { name := "CEST", offset := none,
                           rule := some (⟨.monthWeekDay 3 5 0, 2 * 3600⟩,
                                         ⟨.monthWeekDay 10 5 0, 3 * 3600⟩) } } ∧
    (parseTZ TZ_RULE).map TzRule.stdUtcOffset = some (1 * 3600) ∧
    (parseTZ TZ_RULE).bind TzRule.dstUtcOffset = some (2 * 3600) := by
  decide

/-- C3: the NTP servers, in priority order, are three (so at most three), each
a non-empty host name in RFC 1123 syntax, and pairwise distinct. -/
theorem ntp_servers_three_distinct :
    ["NTP_SERVER_1", "NTP_SERVER_2", "NTP_SERVER_3"].map (expansion configHeader) =
      [some NTP_SERVER_1, some NTP_SERVER_2, some NTP_SERVER_3] ∧
    [NTP_SERVER_1, NTP_SERVER_2, NTP_SERVER_3].length = 3 ∧
    [NTP_SERVER_1, NTP_SERVER_2, NTP_SERVER_3].length ≤ 3 ∧
    (∀ h ∈ [NTP_SERVER_1, NTP_SERVER_2, NTP_SERVER_3], h ≠ "" ∧ isHostname h = true) ∧
    [NTP_SERVER_1, NTP_SERVER_2, NTP_SERVER_3].Pairwise (fun a b => a ≠ b) ∧
    NTP_SERVER_1 ≠ NTP_SERVER_2 ∧ NTP_SERVER_1 ≠ NTP_SERVER_3 ∧
    NTP_SERVER_2 ≠ NTP_SERVER_3 := by
  decide

/-- C4: the impulse topic and the hourly topic are different topics, neither
is an ancestor (level-wise initial segment) of the other, both lie directly
under the parent `test/rainfall`, and they differ in their last level. -/
theorem impulse_hourly_topics_distinct :
    expansion configHeader "IMPULSE_TOPIC" = some IMPULSE_TOPIC ∧
    expansion configHeader "HOURLY_TOPIC" = some HOURLY_TOPIC ∧
    IMPULSE_TOPIC ≠ HOURLY_TOPIC ∧
    (topicLevels IMPULSE_TOPIC).isPrefixOf (topicLevels HOURLY_TOPIC) = false ∧
    (topicLevels HOURLY_TOPIC).isPrefixOf (topicLevels IMPULSE_TOPIC) = false ∧
    topicLevels IMPULSE_TOPIC = ["test", "rainfall", "impulse"] ∧
    topicLevels HOURLY_TOPIC = ["test", "rainfall", "hourly"] ∧
    (topicLevels IMPULSE_TOPIC).dropLast = topicLevels "test/rainfall" ∧
    (topicLevels HOURLY_TOPIC).dropLast = topicLevels "test/rainfall" ∧
    (topicLevels IMPULSE_TOPIC).getLast? ≠ (topicLevels HOURLY_TOPIC).getLast? := by
  decide

/-- C5: an SSID and a password are defined for the primary and for the
secondary network, the secondary SSID differs from the primary SSID, and the
secondary (SSID, password) pair differs from the primary pair. -/
theorem wifi_secondary_is_alternative :
    (expansion configHeader "SSID_PRIMARY" = some SSID_PRIMARY ∧
     expansion configHeader "PASS_PRIMARY" = some PASS_PRIMARY ∧
     expansion configHeader "SSID_SECONDARY" = some SSID_SECONDARY ∧
     expansion configHeader "PASS_SECONDARY" = some PASS_SECONDARY) ∧
    SSID_SECONDARY ≠ SSID_PRIMARY ∧
    (SSID_SECONDARY, PASS_SECONDARY) ≠ (SSID_PRIMARY, PASS_PRIMARY) := by
  decide

/-- C8: each of the two topics is non-empty, at most 65535 bytes long, has no
wildcard `+` or `#`, no NUL character, does not start with `$`, and has no
empty level (no leading, trailing or doubled `/`). -/
theorem topics_valid_for_publish :
    ["IMPULSE_TOPIC", "HOURLY_TOPIC"].map (expansion configHeader) =
      [some IMPULSE_TOPIC, some HOURLY_TOPIC] ∧
    ∀ t ∈ [IMPULSE_TOPIC, HOURLY_TOPIC],
      t ≠ "" ∧ 1 ≤ t.utf8ByteSize ∧ t.utf8ByteSize ≤ 65535 ∧
      '+' ∉ t.toList ∧ '#' ∉ t.toList ∧ Char.ofNat 0 ∉ t.toList ∧
      t.toList.head? ≠ some '$' ∧
      t.toList.head? ≠ some '/' ∧ t.toList.getLast? ≠ some '/' ∧
      "" ∉ topicLevels t := by
  decide

/-- C9: the client identifier is between 1 and 23 bytes long. -/
theorem mqtt_client_id_length :
    expansion configHeader "MQTT_CLIENT_ID" = some MQTT_CLIENT_ID ∧
    1 ≤ MQTT_CLIENT_ID.utf8ByteSize ∧ MQTT_CLIENT_ID.utf8ByteSize ≤ 23 ∧
    MQTT_CLIENT_ID.utf8ByteSize = 11 := by
  decide

/-- C10: both SSIDs are 1 to 32 bytes long, and both passwords are 8 to 63
characters long, all of them printable ASCII. -/
theorem wifi_credentials_within_wpa2_limits :
    ["SSID_PRIMARY", "SSID_SECONDARY", "PASS_PRIMARY", "PASS_SECONDARY"].map
        (expansion configHeader) =
      [some SSID_PRIMARY, some SSID_SECONDARY, some PASS_PRIMARY, some PASS_SECONDARY] ∧
    (∀ s ∈ [SSID_PRIMARY, SSID_SECONDARY], 1 ≤ s.utf8ByteSize ∧ s.utf8ByteSize ≤ 32) ∧
    (∀ p ∈ [PASS_PRIMARY, PASS_SECONDARY],
      8 ≤ p.length ∧ p.length ≤ 63 ∧ p.utf8ByteSize = p.length ∧
      p.toList.all isPrintableAscii = true) := by
  decide

/-! ## ImpulseDebouncer: proofs -/

theorem countGaps_nil (w l : Nat) : countGaps w l [] = 0 := rfl

theorem countGaps_cons (w l t : Nat) (ts : List Nat) :
    countGaps w l (t :: ts) = (if l + w ≤ t then 1 else 0) + countGaps w t ts := by
  simp only [countGaps, List.zip_cons_cons, List.countP_cons, decide_eq_true_eq]
  omega

theorem separatedCount_cons (w t : Nat) (ts : List Nat) :
    separatedCount w (t :: ts) = 1 + countGaps w t ts := by
  simp [separatedCount, countGaps]

theorem run_length_of_last (w l n : Nat) (ts : List Nat) :
    ((ImpulseDebouncer.mk w (some l) n).run ts).2.length = countGaps w l ts := by
  induction ts generalizing l n with
  | nil => rfl
  | cons t ts ih =>
    rw [countGaps_cons]
    by_cases h : l + w ≤ t
    · have hc : (ImpulseDebouncer.mk w (some l) n).tooClose t = false := by
        simp [ImpulseDebouncer.tooClose]; omega
      simp [ImpulseDebouncer.run, ImpulseDebouncer.onTransition, hc, h, ih]
      omega
    · have hc : (ImpulseDebouncer.mk w (some l) n).tooClose t = true := by
        simp [ImpulseDebouncer.tooClose]; omega
      simp [ImpulseDebouncer.run, ImpulseDebouncer.onTransition, hc, h, ih]

/-- Events are numbered consecutively. -/
theorem run_seq (w l n : Nat) (ts : List Nat) :
    ((ImpulseDebouncer.mk w (some l) n).run ts).2.map ImpulseEvent.seq =
      List.range' n (countGaps w l ts) := by
  induction ts generalizing l n with
  | nil => rfl
  | cons t ts ih =>
    rw [countGaps_cons]
    by_cases h : l + w ≤ t
    · have hc : (ImpulseDebouncer.mk w (some l) n).tooClose t = false := by
        simp [ImpulseDebouncer.tooClose]; omega
      simp only [ImpulseDebouncer.run, ImpulseDebouncer.onTransition, hc, h, if_true,
        List.map_cons, Nat.add_comm 1, List.range'_succ]
      simp [ih]
    · have hc : (ImpulseDebouncer.mk w (some l) n).tooClose t = true := by
        simp [ImpulseDebouncer.tooClose]; omega
      simp [ImpulseDebouncer.run, ImpulseDebouncer.onTransition, hc, h, ih]

theorem emittedEvents_cons (w t : Nat) (ts : List Nat) :
    emittedEvents w (t :: ts) =
      ⟨t, 0⟩ :: ((ImpulseDebouncer.mk w (some t) 1).run ts).2 := by
  simp [emittedEvents, ImpulseDebouncer.init, ImpulseDebouncer.run,
    ImpulseDebouncer.onTransition, ImpulseDebouncer.tooClose]

theorem emittedEvents_length (w : Nat) (ts : List Nat) :
    (emittedEvents w ts).length = separatedCount w ts := by
  cases ts with
  | nil => rfl
  | cons t ts =>
    rw [emittedEvents_cons, separatedCount_cons, List.length_cons, run_length_of_last]
    omega

/-- Transitions that all fall within a span shorter than the window after
`t0` open no gap of the window's length. -/
theorem countGaps_burst (w span t0 l : Nat) (ts : List Nat) (hw : span < w) (hl : t0 ≤ l)
    (hts : ∀ t ∈ ts, t0 ≤ t ∧ t ≤ t0 + span) : countGaps w l ts = 0 := by
  induction ts generalizing l with
  | nil => rfl
  | cons t ts ih =>
    have ht := hts t (List.mem_cons_self t ts)
    rw [countGaps_cons, ih t ht.1 (fun u hu => hts u (List.mem_cons_of_mem t hu))]
    have : ¬ l + w ≤ t := by omega
    simp [this]

/-- On the events of a run that has already seen a transition at `l`: for
transitions in time order, every event is at least the window after `l` and
the events are at least the window apart. -/
theorem run_spacing (w l n : Nat) (ts : List Nat)
    (hs : (l :: ts).Pairwise (fun a b => a ≤ b)) :
    (∀ e ∈ ((ImpulseDebouncer.mk w (some l) n).run ts).2, l + w ≤ e.timestamp) ∧
    ((ImpulseDebouncer.mk w (some l) n).run ts).2.Pairwise
      (fun a b => a.timestamp + w ≤ b.timestamp) := by
  induction ts generalizing l n with
  | nil => simp [ImpulseDebouncer.run]
  | cons t ts ih =>
    have hlt : l ≤ t := (List.pairwise_cons.mp hs).1 t (List.mem_cons_self t ts)
    have hs2 : (t :: ts).Pairwise (fun a b => a ≤ b) := (List.pairwise_cons.mp hs).2
    by_cases h : l + w ≤ t
    · have hc : (ImpulseDebouncer.mk w (some l) n).tooClose t = false := by
        simp [ImpulseDebouncer.tooClose]; omega
      obtain ⟨h1, h2⟩ := ih t (n + 1) hs2
      simp only [ImpulseDebouncer.run, ImpulseDebouncer.onTransition, hc]
      constructor
      · intro e he
        rcases List.mem_cons.mp he with rfl | he
        · exact h
        · have := h1 e he
          omega
      · exact List.pairwise_cons.mpr ⟨fun e he => h1 e he, h2⟩
    · have hc : (ImpulseDebouncer.mk w (some l) n).tooClose t = true := by
        simp [ImpulseDebouncer.tooClose]; omega
      obtain ⟨h1, h2⟩ := ih t n hs2
      simp only [ImpulseDebouncer.run, ImpulseDebouncer.onTransition, hc]
      refine ⟨fun e he => ?_, h2⟩
      have := h1 e he
      omega

/-- The window is the minimum interval between emitted events: for transitions
in time order, any two events are at least the window apart. -/
theorem emittedEvents_spacing (w : Nat) (ts : List Nat)
    (hs : ts.Pairwise (fun a b => a ≤ b)) :
    (emittedEvents w ts).Pairwise (fun a b => a.timestamp + w ≤ b.timestamp) := by
  cases ts with
  | nil => simp [emittedEvents, ImpulseDebouncer.init, ImpulseDebouncer.run]
  | cons t ts =>
    rw [emittedEvents_cons]
    obtain ⟨h1, h2⟩ := run_spacing w t 1 ts hs
    exact List.pairwise_cons.mpr ⟨fun e he => h1 e he, h2⟩

/-- C6: for every sequence of raw transitions and every window, the number of
events the debouncer emits is the number of transitions separated by at
least the window (the first, and each one at least the window after the one
before it), and for transitions in time order the events are at least the
window apart; transitions that all fall within 5 ms give one event under any
window above 5 ms, ten of them under a 50 ms window in particular, and two
transitions 100 ms apart give two events under any window up to 100 ms. -/
theorem debouncer_event_count (window : Nat) (ts : List Nat) :
    (emittedEvents window ts).length = separatedCount window ts ∧
    (ts.Pairwise (fun a b => a ≤ b) →
      (emittedEvents window ts).Pairwise (fun a b => a.timestamp + window ≤ b.timestamp)) ∧
    (∀ t0 burst, 5 < window → (∀ t ∈ burst, t0 ≤ t ∧ t ≤ t0 + 5) →
      (emittedEvents window (t0 :: burst)).length = 1) ∧
    (emittedEvents 50 [1000, 1000, 1001, 1001, 1002, 1003, 1003, 1004, 1005, 1005]).length = 1 ∧
    (∀ t0, window ≤ 100 → (emittedEvents window [t0, t0 + 100]).length = 2) ∧
    (emittedEvents 50 [1000, 1100]).length = 2 := by
  refine ⟨emittedEvents_length window ts, emittedEvents_spacing window ts, ?_, by decide, ?_,
    by decide⟩
  · intro t0 burst hw hb
    rw [emittedEvents_length, separatedCount_cons,
      countGaps_burst window 5 t0 t0 burst hw (Nat.le_refl t0) hb]
  · intro t0 hw
    rw [emittedEvents_length, separatedCount_cons, countGaps_cons, countGaps_nil]
    have : t0 + window ≤ t0 + 100 := by omega
    simp [this]

/-! ## RainAccumulator: proofs -/

theorem impulsesInHour_nil (h : Nat) : impulsesInHour [] h = 0 := rfl

theorem impulsesInHour_cons (e : ImpulseEvent) (es : List ImpulseEvent) (h : Nat) :
    impulsesInHour (e :: es) h =
      impulsesInHour es h +
        (if h * HOUR_MS ≤ e.timestamp ∧ e.timestamp < h * HOUR_MS + HOUR_MS then 1 else 0) := by
  simp [impulsesInHour, List.countP_cons]

theorem impulsesInHour_eq_zero (es : List ImpulseEvent) (h : Nat)
    (hes : ∀ e ∈ es, h * HOUR_MS + HOUR_MS ≤ e.timestamp) : impulsesInHour es h = 0 := by
  unfold impulsesInHour
  rw [List.countP_eq_zero]
  intro e he
  have := hes e he
  simp only [decide_eq_true_eq]
  omega

theorem rolloverN_fst (n k c : Nat) :
    (RainAccumulator.rolloverN n ⟨k * HOUR_MS, c⟩).1 =
      ⟨(k + n) * HOUR_MS, if n = 0 then c else 0⟩ := by
  induction n generalizing k c with
  | zero => simp [RainAccumulator.rolloverN]
  | succ n ih =>
    have hk : k * HOUR_MS + HOUR_MS = (k + 1) * HOUR_MS := by rw [Nat.succ_mul]
    simp only [RainAccumulator.rolloverN, RainAccumulator.rollover, hk, ih]
    have : k + 1 + n = k + (n + 1) := by omega
    simp [this]

theorem rolloverN_snd (n k c : Nat) :
    (RainAccumulator.rolloverN n ⟨k * HOUR_MS, c⟩).2 = expectedTotals k n c [] := by
  induction n generalizing k c with
  | zero => simp [RainAccumulator.rolloverN, expectedTotals]
  | succ n ih =>
    have hk : k * HOUR_MS + HOUR_MS = (k + 1) * HOUR_MS := by rw [Nat.succ_mul]
    simp only [RainAccumulator.rolloverN, RainAccumulator.rollover, hk, ih]
    simp only [expectedTotals, List.range'_succ, List.map_cons, impulsesInHour_nil]
    refine List.cons_eq_cons.mpr ⟨by simp, ?_⟩
    apply List.map_congr_left
    intro h hh
    have := (List.mem_range'_1.mp hh).1
    have h1 : h ≠ k := by omega
    simp [h1]

theorem checkRollover_eq (k c now : Nat) (hk : k * HOUR_MS ≤ now) :
    RainAccumulator.checkRollover ⟨k * HOUR_MS, c⟩ now =
      RainAccumulator.rolloverN (now / HOUR_MS - k) ⟨k * HOUR_MS, c⟩ := by
  have : (now - k * HOUR_MS) / HOUR_MS = now / HOUR_MS - k := by
    simp only [HOUR_MS] at hk ⊢
    omega
  simp only [RainAccumulator.checkRollover, this]

theorem expectedTotals_append (k j n c : Nat) (es : List ImpulseEvent) (hkj : k ≤ j)
    (hjn : j ≤ k + n) :
    expectedTotals k n c es =
      (List.range' k (j - k)).map (fun h =>
        { hourStart := h * HOUR_MS, count := (if h = k then c else 0) + impulsesInHour es h }) ++
      (List.range' j (k + n - j)).map (fun h =>
        { hourStart := h * HOUR_MS, count := (if h = k then c else 0) + impulsesInHour es h }) := by
  unfold expectedTotals
  rw [← List.map_append]
  congr 1
  have key := List.range'_append k (j - k) (k + n - j) 1
  have e1 : k + 1 * (j - k) = j := by omega
  have e2 : (k + n - j) + (j - k) = n := by omega
  rw [e1, e2] at key
  exact key.symm

/-- Recording an impulse whose timestamp lies in hour `j`, from hour `k`. -/
theorem recordImpulse_eq (k c j : Nat) (e : ImpulseEvent) (hkj : k ≤ j)
    (hjl : j * HOUR_MS ≤ e.timestamp) (hju : e.timestamp < j * HOUR_MS + HOUR_MS) :
    RainAccumulator.recordImpulse ⟨k * HOUR_MS, c⟩ e =
      (⟨j * HOUR_MS, (if j = k then c else 0) + 1⟩, expectedTotals k (j - k) c []) := by
  have hdiv : e.timestamp / HOUR_MS = j := by
    simp only [HOUR_MS] at hjl hju ⊢
    omega
  have hke : k * HOUR_MS ≤ e.timestamp := by
    simp only [HOUR_MS] at hjl ⊢
    omega
  simp only [RainAccumulator.recordImpulse, checkRollover_eq k c _ hke, rolloverN_fst,
    rolloverN_snd, hdiv]
  have h1 : k + (j - k) = j := by omega
  have h2 : (j - k = 0) ↔ (j = k) := by omega
  simp only [h1, h2]

/-- Recording a day of impulses and then flushing at hour `N` hands out, for
every hour from the current one to `N - 1`, the number of impulses whose
timestamp lies in that hour. -/
theorem run_then_flush (N : Nat) (es : List ImpulseEvent) (k c : Nat) (hkN : k ≤ N)
    (hs : es.Pairwise (fun a b => a.timestamp ≤ b.timestamp))
    (hes : ∀ e ∈ es, k * HOUR_MS ≤ e.timestamp ∧ e.timestamp < N * HOUR_MS) :
    ((RainAccumulator.mk (k * HOUR_MS) c).run es).2 ++
      (((RainAccumulator.mk (k * HOUR_MS) c).run es).1.checkRollover (N * HOUR_MS)).2 =
    expectedTotals k (N - k) c es := by
  induction es generalizing k c with
  | nil =>
    have hN : k * HOUR_MS ≤ N * HOUR_MS := Nat.mul_le_mul_right _ hkN
    have hd : N * HOUR_MS / HOUR_MS = N := by simp [HOUR_MS]
    simp only [RainAccumulator.run, List.nil_append, checkRollover_eq k c _ hN, hd,
      rolloverN_snd]
  | cons e es ih =>
    obtain ⟨hke, heN⟩ := hes e (List.mem_cons_self e es)
    obtain ⟨hle, hs2⟩ := List.pairwise_cons.mp hs
    obtain ⟨j, hjl, hju⟩ : ∃ j, j * HOUR_MS ≤ e.timestamp ∧
        e.timestamp < j * HOUR_MS + HOUR_MS :=
      ⟨e.timestamp / HOUR_MS, Nat.div_mul_le_self _ _, by simp only [HOUR_MS]; omega⟩
    have hjk : k ≤ j := by
      simp only [HOUR_MS] at hke hju; omega
    have hjN : j < N := by
      simp only [HOUR_MS] at heN hjl; omega
    have hes2 : ∀ e2 ∈ es, j * HOUR_MS ≤ e2.timestamp ∧ e2.timestamp < N * HOUR_MS := by
      intro e2 he2
      have := hle e2 he2
      exact ⟨by omega, (hes e2 (List.mem_cons_of_mem e he2)).2⟩
    have hih := ih j ((if j = k then c else 0) + 1) (Nat.le_of_lt hjN) hs2 hes2
    simp only [RainAccumulator.run, recordImpulse_eq k c j e hjk hjl hju, List.append_assoc,
      hih]
    rw [expectedTotals_append k j (N - k) c (e :: es) hjk (by omega)]
    have hNk : k + (N - k) - j = N - j := by omega
    rw [hNk]
    congr 1
    · unfold expectedTotals
      apply List.map_congr_left
      intro h hh
      have hh2 := List.mem_range'_1.mp hh
      have hz : impulsesInHour (e :: es) h = 0 := by
        apply impulsesInHour_eq_zero
        intro e2 he2
        have hge : e.timestamp ≤ e2.timestamp := by
          rcases List.mem_cons.mp he2 with rfl | he2
          · exact Nat.le_refl _
          · exact hle e2 he2
        simp only [HOUR_MS] at hjl ⊢
        omega
      simp [hz, impulsesInHour_nil]
    · unfold expectedTotals
      apply List.map_congr_left
      intro h hh
      have hh2 := List.mem_range'_1.mp hh
      rw [impulsesInHour_cons]
      by_cases hj : h = j
      · subst hj
        have hin : h * HOUR_MS ≤ e.timestamp ∧ e.timestamp < h * HOUR_MS + HOUR_MS :=
          ⟨hjl, hju⟩
        simp only [hin, and_self, if_true]
        congr 1
        omega
      · have hout : ¬ (h * HOUR_MS ≤ e.timestamp ∧ e.timestamp < h * HOUR_MS + HOUR_MS) := by
          simp only [HOUR_MS] at hjl hju ⊢
          omega
        have hk2 : h ≠ k := by omega
        simp [hj, hout, hk2]

/-- Under in-order impulses of one day the totals of the day are, hour by
hour, the impulses of that hour. -/
theorem dayTotals_eq (es : List ImpulseEvent)
    (hs : es.Pairwise (fun a b => a.timestamp ≤ b.timestamp))
    (hday : ∀ e ∈ es, e.timestamp < HOURS_PER_DAY * HOUR_MS) :
    dayTotals es =
      (List.range HOURS_PER_DAY).map fun h =>
        { hourStart := h * HOUR_MS, count := impulsesInHour es h } := by
  have h := run_then_flush HOURS_PER_DAY es 0 0 (Nat.zero_le _) hs
    (fun e he => ⟨by simp, hday e he⟩)
  simp only [Nat.zero_mul] at h
  unfold dayTotals RainAccumulator.init
  rw [h, expectedTotals, List.range_eq_range']
  apply List.map_congr_left
  intro i _
  simp

theorem hour_indicator_sum (N t : Nat) :
    ((List.range N).map fun h =>
      if h * HOUR_MS ≤ t ∧ t < h * HOUR_MS + HOUR_MS then 1 else 0).sum =
      if t < N * HOUR_MS then 1 else 0 := by
  induction N with
  | zero => simp
  | succ N ih =>
    rw [List.range_succ, List.map_append, List.sum_append, ih]
    simp only [List.map_cons, List.map_nil, List.sum_cons, List.sum_nil, HOUR_MS]
    split_ifs <;> omega

theorem impulsesInHour_sum (N : Nat) (es : List ImpulseEvent)
    (hes : ∀ e ∈ es, e.timestamp < N * HOUR_MS) :
    ((List.range N).map (impulsesInHour es)).sum = es.length := by
  induction es with
  | nil =>
    have h0 : impulsesInHour [] = fun _ => 0 := funext impulsesInHour_nil
    simp [h0]
  | cons e es ih =>
    have h1 : (fun h => impulsesInHour (e :: es) h) = fun h =>
        impulsesInHour es h +
          (if h * HOUR_MS ≤ e.timestamp ∧ e.timestamp < h * HOUR_MS + HOUR_MS then 1 else 0) :=
      funext fun h => impulsesInHour_cons e es h
    have h2 : impulsesInHour (e :: es) = fun h => impulsesInHour (e :: es) h := rfl
    rw [h2, h1, List.sum_map_add, ih (fun e2 he2 => hes e2 (List.mem_cons_of_mem e he2)),
      hour_indicator_sum, if_pos (hes e (List.mem_cons_self e es)), List.length_cons]

/-- Rollovers hand out what was counted and nothing else. -/
theorem rolloverN_conserves (n : Nat) (a : RainAccumulator) :
    ((a.rolloverN n).2.map HourlyTotal.count).sum + (a.rolloverN n).1.count = a.count := by
  induction n generalizing a with
  | zero => simp [RainAccumulator.rolloverN]
  | succ n ih =>
    have := ih a.rollover.1
    simp only [RainAccumulator.rolloverN, List.map_cons, List.sum_cons]
    simp only [RainAccumulator.rollover] at this ⊢
    omega

/-- At every point of a run, in any order of timestamps, the totals handed out
so far and the current hour count add up to the impulses recorded. -/
theorem run_conserves (a : RainAccumulator) (es : List ImpulseEvent) :
    ((a.run es).2.map HourlyTotal.count).sum + (a.run es).1.currentHourCount =
      a.count + es.length := by
  induction es generalizing a with
  | nil => simp [RainAccumulator.run, RainAccumulator.currentHourCount]
  | cons e es ih =>
    have h1 := ih (a.recordImpulse e).1
    have h2 := rolloverN_conserves ((e.timestamp - a.hourStart) / HOUR_MS) a
    simp only [RainAccumulator.run, List.map_append, List.sum_append, List.length_cons]
    simp only [RainAccumulator.recordImpulse, RainAccumulator.checkRollover] at h1 ⊢
    omega

/-- In any order of timestamps below hour `N`, a run from hour `k` ends in
some hour `kf` below `N`, having handed out one total for each of the hours
`k .. kf - 1`. -/
theorem run_hour_form (N : Nat) (es : List ImpulseEvent) (k c : Nat) (hk : k < N)
    (hes : ∀ e ∈ es, e.timestamp < N * HOUR_MS) :
    ∃ kf cf, k ≤ kf ∧ kf < N ∧
      (RainAccumulator.mk (k * HOUR_MS) c).run es = (⟨kf * HOUR_MS, cf⟩,
        ((RainAccumulator.mk (k * HOUR_MS) c).run es).2) ∧
      ((RainAccumulator.mk (k * HOUR_MS) c).run es).2.length = kf - k := by
  induction es generalizing k c with
  | nil => exact ⟨k, c, Nat.le_refl k, hk, rfl, by simp [RainAccumulator.run]⟩
  | cons e es ih =>
    have heN := hes e (List.mem_cons_self e es)
    obtain ⟨n, hn⟩ : ∃ n, n = (e.timestamp - k * HOUR_MS) / HOUR_MS := ⟨_, rfl⟩
    have hkn : k + n < N := by
      simp only [HOUR_MS] at heN hn
      omega
    have hrec : RainAccumulator.recordImpulse ⟨k * HOUR_MS, c⟩ e =
        (⟨(k + n) * HOUR_MS, (if n = 0 then c else 0) + 1⟩, expectedTotals k n c []) := by
      simp only [RainAccumulator.recordImpulse, RainAccumulator.checkRollover, ← hn,
        rolloverN_fst, rolloverN_snd]
    obtain ⟨kf, cf, h1, h2, h3, h4⟩ := ih (k + n) ((if n = 0 then c else 0) + 1) hkn
      (fun e2 he2 => hes e2 (List.mem_cons_of_mem e he2))
    refine ⟨kf, cf, by omega, h2, ?_, ?_⟩
    · simp only [RainAccumulator.run, hrec]
      rw [h3]
    · simp only [RainAccumulator.run, hrec, List.length_append, h4]
      simp only [expectedTotals, List.length_map, List.length_range']
      omega

/-- In any order of timestamps within the day, the day has 24 totals and
their counts add up to the impulses recorded. -/
theorem dayTotals_length_sum (es : List ImpulseEvent)
    (hday : ∀ e ∈ es, e.timestamp < HOURS_PER_DAY * HOUR_MS) :
    (dayTotals es).length = HOURS_PER_DAY ∧
    ((dayTotals es).map HourlyTotal.count).sum = es.length := by
  obtain ⟨kf, cf, _, h2, h3, h4⟩ :=
    run_hour_form HOURS_PER_DAY es 0 0 (by decide) hday
  have hcons := run_conserves ⟨0 * HOUR_MS, 0⟩ es
  have hfl : kf * HOUR_MS ≤ HOURS_PER_DAY * HOUR_MS :=
    Nat.mul_le_mul_right _ (Nat.le_of_lt h2)
  have hd : HOURS_PER_DAY * HOUR_MS / HOUR_MS = HOURS_PER_DAY := by
    simp [HOUR_MS]
  have hflush := rolloverN_conserves (HOURS_PER_DAY - kf) ⟨kf * HOUR_MS, cf⟩
  have hne : ¬ (HOURS_PER_DAY - kf = 0) := by omega
  rw [rolloverN_fst] at hflush
  simp only [hne, if_false] at hflush
  rw [h3] at hcons
  simp only [RainAccumulator.currentHourCount] at hcons
  unfold dayTotals RainAccumulator.init
  simp only [Nat.zero_mul] at h3 h4 hcons
  rw [h3]
  simp only [checkRollover_eq kf cf _ hfl, hd, List.length_append, List.map_append,
    List.sum_append, h4]
  constructor
  · simp only [rolloverN_snd, expectedTotals, List.length_map, List.length_range']
    omega
  · omega

/-- C7: for the impulses of one day, the RainAccumulator hands out 24
HourlyTotals whose counts add up to the number of impulses recorded; when the
impulses come in time order these are exactly one total for each hour, in
order, the count of hour `h` being the number of impulses with timestamp in
`[h * HOUR_MS, h * HOUR_MS + HOUR_MS)`, so that an impulse exactly at a
boundary counts for the new hour.  The impulses at 0:10, 0:20, 0:45, 1:05,
1:50 give 3 for hour 0 and 2 for hour 1; of two impulses at 0:59 and at 1:00
sharp, the second counts for hour 1. -/
theorem hourly_totals_account_for_impulses (es : List ImpulseEvent)
    (hday : ∀ e ∈ es, e.timestamp < 24 * HOUR_MS) :
    (dayTotals es).length = 24 ∧
    ((dayTotals es).map HourlyTotal.count).sum = es.length ∧
    (es.Pairwise (fun a b => a.timestamp ≤ b.timestamp) →
      dayTotals es =
        (List.range 24).map (fun h =>
          { hourStart := h * HOUR_MS,
            count := es.countP fun e =>
              decide (h * HOUR_MS ≤ e.timestamp ∧ e.timestamp < h * HOUR_MS + HOUR_MS) })) ∧
    ((dayTotals scenarioImpulses)[0]? = some ⟨0, 3⟩ ∧
     (dayTotals scenarioImpulses)[1]? = some ⟨HOUR_MS, 2⟩) ∧
    ((dayTotals (impulsesAt [(0, 59), (1, 0)]))[0]? = some ⟨0, 1⟩ ∧
     (dayTotals (impulsesAt [(0, 59), (1, 0)]))[1]? = some ⟨HOUR_MS, 1⟩) := by
  obtain ⟨hlen, hsum⟩ := dayTotals_length_sum es hday
  exact ⟨hlen, hsum, fun hs => dayTotals_eq es hs hday, by decide, by decide⟩

/-- The scenario lies within one day, and its five impulses are all accounted
for in the day's totals. -/
theorem hourly_totals_scenario :
    (∀ e ∈ scenarioImpulses, e.timestamp < 24 * HOUR_MS) ∧
    ((dayTotals scenarioImpulses).map HourlyTotal.count).sum = 5 :=
  ⟨by decide, (hourly_totals_account_for_impulses scenarioImpulses (by decide)).2.1⟩

end RainfallSensor
